import Mathlib

/-! RiddleSense front end: the bootstrap sequence of `frontend/src/main.js`.

`main.js` is a straight-line script over a GUI framework:

```
const app = createApp(App)
for (const [key, component] of Object.entries(ElementPlusIconsVue)) {
  app.component(key, component)
}
app.use(router)
app.use(ElementPlus)
app.mount('#app')
```

The script is embedded as explicit state passing over a `World` (the host document together
with the single application instance the script owns).  A call that throws stops the
script; what the earlier calls wrote to the instance stays written, as it does for a
JavaScript object that was mutated before an exception.  The framework calls themselves
(`createApp`, `app.component`, `app.use`, `app.mount`) are not part of the repository; their
effect is modelled from the specification and marked as such.
-/

namespace RiddleSense

/-! ## Data model -/

/-- A component definition (the root component `App`, or one icon component).
`wellFormed` records whether the framework accepts the definition as a root component. -/
structure Component where
  name : String
  wellFormed : Bool
deriving DecidableEq, Repr

/-- A plugin: an object with an `install`-style entry point accepting the application
instance.  `installs` records whether that entry point returns normally, `provides` the
prebuilt components the entry point makes globally available, each under its name. -/
structure Plugin where
  name : String
  installs : Bool
  provides : List (String × Component)
deriving DecidableEq, Repr

/-- A call the script issues on the framework, in the order issued. -/
inductive Call where
  | createApp (root : Component)
  | component (key : String) (component : Component)
  | use (plugin : Plugin)
  | mount (selector : String)
deriving DecidableEq, Repr

/-- The faults a framework call can raise. -/
inductive Fault where
  | malformedRoot (root : Component)
  | installFailed (plugin : Plugin)
  | mountTargetMissing (selector : String)
deriving DecidableEq, Repr

/-- The global component registry of an application instance: a finite map from component
name to component. -/
abbrev Registry := Finmap (fun _ : String => Component)

/-- The state the script acts on: the host document and the one application instance. -/
structure World where
  /-- host document: the selectors that match an element of the document -/
  elements : List String
  /-- host document: the mount points that hold rendered output -/
  rendered : List String
  /-- application instance: its root component, `none` while no instance exists -/
  root : Option Component
  /-- application instance: globally registered components -/
  components : Registry
  /-- application instance: installed plugins, oldest first -/
  plugins : List Plugin
  /-- application instance: the selectors it has been mounted on, oldest first -/
  mounts : List String
  /-- the framework calls issued so far, oldest first -/
  calls : List Call

/-- The world when the hosting page has just loaded: nothing rendered, no instance. -/
def World.load (elements : List String) : World :=
  { elements := elements, rendered := [], root := none, components := ∅,
    plugins := [], mounts := [], calls := [] }

/-- The outcome of running (part of) the script: the world reached, and the fault that
stopped it, if any. -/
structure Run where
  world : World
  fault : Option Fault

/-- A step that returned normally. -/
def Run.ok (w : World) : Run := { world := w, fault := none }

/-- Sequencing of statements: the next statement runs only if nothing was thrown. -/
def Run.andThen (r : Run) (next : World → Run) : Run :=
  match r.fault with
  | some _ => r
  | none => next r.world

/-- The imports of `main.js`. -/
structure Env where
  /-- the root component, `./App.vue` -/
  App : Component
  /-- the router, `./router` -/
  router : Plugin
  /-- the UI component library, `element-plus` -/
  ElementPlus : Plugin
  /-- the icon mapping `@element-plus/icons-vue`, as `Object.entries` enumerates it -/
  ElementPlusIconsVue : List (String × Component)

/-! ## The framework calls -/

/-- Modelled from the spec: the framework's `createApp` is not in the repository.  It creates
a fresh application instance attached to the root component definition (nothing registered,
nothing installed, not mounted) and fails if that definition is malformed. -/
def createApp (root : Component) (w : World) : Run :=
  let w1 := { w with calls := w.calls ++ [Call.createApp root] }
  if root.wellFormed then
    Run.ok { w1 with root := some root, components := ∅, plugins := [], mounts := [] }
  else
    { world := w1, fault := some (Fault.malformedRoot root) }

/-- Modelled from the spec: the framework's `app.component(name, component)` is not in the
repository.  It registers a globally available component under `name`; a binding already
held by `name` is overwritten silently. -/
def component (key : String) (c : Component) (w : World) : Run :=
  Run.ok { w with components := w.components.insert key c,
                  calls := w.calls ++ [Call.component key c] }

/-- Registration of a list of components in a registry, in list order, each overwriting
the binding its name held. -/
def registerAll (entries : List (String × Component)) (reg : Registry) : Registry :=
  entries.foldl (fun r e => r.insert e.1 e.2) reg

/-- Modelled from the spec: the framework's `app.use(plugin)` is not in the repository.  It
installs the plugin onto the application instance through the plugin's `install` entry
point, which makes the plugin's prebuilt components available to every component of the
instance (they enter the global registry under their names), and fails if that entry point
fails. -/
def use (p : Plugin) (w : World) : Run :=
  let w1 := { w with calls := w.calls ++ [Call.use p] }
  if p.installs then
    Run.ok { w1 with plugins := w1.plugins ++ [p],
                     components := registerAll p.provides w1.components }
  else
    { world := w1, fault := some (Fault.installFailed p) }

/-- Modelled from the spec: the framework's `app.mount(selector)` is not in the repository.
It attaches the rendered output of the instance to the document element the selector
identifies, and fails if the document has no such element. -/
def mount (selector : String) (w : World) : Run :=
  let w1 := { w with calls := w.calls ++ [Call.mount selector] }
  if selector ∈ w.elements then
    Run.ok { w1 with mounts := w1.mounts ++ [selector], rendered := w1.rendered ++ [selector] }
  else
    { world := w1, fault := some (Fault.mountTargetMissing selector) }

/-! ## The script -/

/-- Lines 17-19 of `main.js`:
`for (const [key, component] of entries) app.component(key, component)`. -/
def registerIcons (entries : List (String × Component)) (w : World) : Run :=
  match entries with
  | [] => Run.ok w
  | (key, c) :: rest => (component key c w).andThen (registerIcons rest)

/-- Lines 14-23 of `main.js`, run on a freshly loaded page. -/
def main (env : Env) (elements : List String) : Run :=
  ((((createApp env.App (World.load elements)).andThen
    (registerIcons env.ElementPlusIconsVue)).andThen
    (use env.router)).andThen
    (use env.ElementPlus)).andThen
    (mount "#app")

/-- Lines 14-22 of `main.js`: everything the script does before its last statement. -/
def beforeMount (env : Env) (elements : List String) : Run :=
  (((createApp env.App (World.load elements)).andThen
    (registerIcons env.ElementPlusIconsVue)).andThen
    (use env.router)).andThen
    (use env.ElementPlus)

/-- Lines 14-19 of `main.js`: instance creation and the icon loop. -/
def afterIcons (env : Env) (elements : List String) : Run :=
  (createApp env.App (World.load elements)).andThen
    (registerIcons env.ElementPlusIconsVue)

/-- The world right after `createApp` has returned the fresh instance. -/
def created (env : Env) (elements : List String) : World :=
  { World.load elements with root := some env.App, calls := [Call.createApp env.App] }

/-- The world right after the icon loop, on an instance that was created. -/
def iconsDone (env : Env) (elements : List String) : World :=
  (registerIcons env.ElementPlusIconsVue (created env elements)).world

/-- The call that raises a given fault. -/
def Fault.raisedBy : Fault → Call
  | Fault.malformedRoot root => Call.createApp root
  | Fault.installFailed p => Call.use p
  | Fault.mountTargetMissing selector => Call.mount selector

/-- The order of operations the specification fixes: create the instance from the root
component, register every icon, install the router, install the UI library, mount. -/
def specOrder (env : Env) : List Call :=
  [Call.createApp env.App]
    ++ env.ElementPlusIconsVue.map (fun e => Call.component e.1 e.2)
    ++ [Call.use env.router, Call.use env.ElementPlus, Call.mount "#app"]

/-! ## Sample inputs -/

def editIcon : Component := { name := "Edit", wellFormed := true }
def deleteIcon : Component := { name := "Delete", wellFormed := true }
def searchIcon : Component := { name := "Search", wellFormed := true }
def routerLink : Component := { name := "RouterLink", wellFormed := true }
def routerView : Component := { name := "RouterView", wellFormed := true }
def elButton : Component := { name := "ElButton", wellFormed := true }
def elEdit : Component := { name := "ElEdit", wellFormed := true }

/-- A router plugin that installs and provides its two components. -/
def sampleRouter : Plugin :=
  { name := "router", installs := true,
    provides := [("RouterLink", routerLink), ("RouterView", routerView)] }

/-- A healthy set of imports with two icons. -/
def sampleEnv : Env :=
  { App := { name := "App", wellFormed := true },
    router := sampleRouter,
    ElementPlus := { name := "ElementPlus", installs := true,
                     provides := [("ElButton", elButton)] },
    ElementPlusIconsVue := [("Edit", editIcon), ("Delete", deleteIcon)] }

/-- The same imports, with a UI library whose `install` throws. -/
def brokenLibraryEnv : Env :=
  { sampleEnv with ElementPlus := { name := "ElementPlus", installs := false,
                                    provides := [("ElButton", elButton)] } }

/-- The same imports, with a UI library that provides a component named like an icon. -/
def collidingEnv : Env :=
  { sampleEnv with ElementPlus := { name := "ElementPlus", installs := true,
                                    provides := [("ElButton", elButton), ("Edit", elEdit)] } }

/-- A world in which an instance already carries one component and one plugin. -/
def busyWorld : World :=
  { World.load ["#app"] with
      root := some sampleEnv.App,
      components := (∅ : Registry).insert "Search" searchIcon,
      plugins := [sampleEnv.router] }

/-! ## Sequencing lemmas -/

theorem Run.andThen_of_ok (r : Run) (next : World → Run) (h : r.fault = none) :
    r.andThen next = next r.world := by
  unfold Run.andThen
  rw [h]

theorem registerIcons_cons (key : String) (c : Component) (rest : List (String × Component))
    (w : World) :
    registerIcons ((key, c) :: rest) w =
      registerIcons rest { w with components := w.components.insert key c,
                                  calls := w.calls ++ [Call.component key c] } := rfl

theorem registerIcons_fault (es : List (String × Component)) (w : World) :
    (registerIcons es w).fault = none := by
  induction es generalizing w with
  | nil => rfl
  | cons e rest ih =>
    obtain ⟨k, c⟩ := e
    rw [registerIcons_cons]
    exact ih _

theorem registerIcons_append (xs ys : List (String × Component)) (w : World) :
    registerIcons (xs ++ ys) w = registerIcons ys (registerIcons xs w).world := by
  induction xs generalizing w with
  | nil => rfl
  | cons e rest ih =>
    obtain ⟨k, c⟩ := e
    rw [List.cons_append, registerIcons_cons, registerIcons_cons]
    exact ih _

theorem registerIcons_frame (es : List (String × Component)) (w : World) :
    (registerIcons es w).world.elements = w.elements ∧
    (registerIcons es w).world.rendered = w.rendered ∧
    (registerIcons es w).world.root = w.root ∧
    (registerIcons es w).world.plugins = w.plugins ∧
    (registerIcons es w).world.mounts = w.mounts ∧
    (registerIcons es w).world.calls = w.calls ++ es.map (fun e => Call.component e.1 e.2) := by
  induction es generalizing w with
  | nil => simp [registerIcons, Run.ok]
  | cons e rest ih =>
    obtain ⟨k, c⟩ := e
    rw [registerIcons_cons]
    have h := ih { w with components := w.components.insert k c,
                          calls := w.calls ++ [Call.component k c] }
    simpa using h

theorem lookup_registerIcons_of_not_mem (es : List (String × Component)) (w : World)
    (n : String) (h : n ∉ es.map Prod.fst) :
    (registerIcons es w).world.components.lookup n = w.components.lookup n := by
  induction es generalizing w with
  | nil => rfl
  | cons e rest ih =>
    obtain ⟨k, c⟩ := e
    simp only [List.map_cons, List.mem_cons, not_or] at h
    rw [registerIcons_cons, ih _ h.2]
    exact Finmap.lookup_insert_of_ne _ h.1

theorem lookup_registerIcons_last (pre post : List (String × Component)) (key : String)
    (c : Component) (w : World) (h : key ∉ post.map Prod.fst) :
    (registerIcons (pre ++ (key, c) :: post) w).world.components.lookup key = some c := by
  rw [registerIcons_append, registerIcons_cons, lookup_registerIcons_of_not_mem _ _ _ h]
  exact Finmap.lookup_insert _

theorem lookup_registerIcons_of_mem (es : List (String × Component)) (w : World)
    (hk : (es.map Prod.fst).Nodup) (key : String) (c : Component) (h : (key, c) ∈ es) :
    (registerIcons es w).world.components.lookup key = some c := by
  obtain ⟨pre, post, rfl⟩ := List.append_of_mem h
  apply lookup_registerIcons_last
  rw [List.map_append, List.map_cons] at hk
  have h2 := (List.nodup_append.1 hk).2.1
  exact (List.nodup_cons.1 h2).1

theorem keys_registerIcons (es : List (String × Component)) (w : World) :
    (registerIcons es w).world.components.keys =
      w.components.keys ∪ (es.map Prod.fst).toFinset := by
  ext n
  simp only [Finmap.mem_keys, Finset.mem_union, List.mem_toFinset]
  induction es generalizing w with
  | nil => simp [registerIcons, Run.ok]
  | cons e rest ih =>
    obtain ⟨k, c⟩ := e
    rw [registerIcons_cons, ih]
    simp only [Finmap.mem_insert, List.map_cons, List.mem_cons]
    tauto


theorem lookup_registerAll_of_not_mem (es : List (String × Component)) (reg : Registry)
    (n : String) (h : n ∉ es.map Prod.fst) :
    (registerAll es reg).lookup n = reg.lookup n := by
  induction es generalizing reg with
  | nil => rfl
  | cons e rest ih =>
    simp only [List.map_cons, List.mem_cons, not_or] at h
    show (registerAll rest (reg.insert e.1 e.2)).lookup n = reg.lookup n
    rw [ih _ h.2]
    exact Finmap.lookup_insert_of_ne _ h.1

theorem mem_registerAll (es : List (String × Component)) (reg : Registry) (n : String) :
    n ∈ registerAll es reg ↔ n ∈ reg ∨ n ∈ es.map Prod.fst := by
  induction es generalizing reg with
  | nil => simp [registerAll]
  | cons e rest ih =>
    show n ∈ registerAll rest (reg.insert e.1 e.2) ↔ _
    rw [ih]
    simp only [Finmap.mem_insert, List.map_cons, List.mem_cons]
    tauto

/-! ## The run of the script, case by case -/

theorem main_of_malformed (env : Env) (els : List String) (h : env.App.wellFormed = false) :
    main env els =
      { world := { World.load els with calls := [Call.createApp env.App] },
        fault := some (Fault.malformedRoot env.App) } := by
  simp [main, createApp, h, Run.andThen, World.load]

theorem main_of_router_fails (env : Env) (els : List String) (h : env.App.wellFormed = true)
    (hr : env.router.installs = false) :
    main env els =
      { world := { iconsDone env els with
                     calls := (iconsDone env els).calls ++ [Call.use env.router] },
        fault := some (Fault.installFailed env.router) } := by
  have e : createApp env.App (World.load els) = Run.ok (created env els) := by
    simp [createApp, h, created, World.load]
  unfold main
  rw [e, Run.andThen_of_ok (Run.ok _) _ rfl,
    Run.andThen_of_ok _ _ (registerIcons_fault _ _)]
  simp [use, hr, Run.andThen, iconsDone, Run.ok]

theorem main_of_library_fails (env : Env) (els : List String) (h : env.App.wellFormed = true)
    (hr : env.router.installs = true) (hl : env.ElementPlus.installs = false) :
    main env els =
      { world := { iconsDone env els with
                     plugins := (iconsDone env els).plugins ++ [env.router],
                     components := registerAll env.router.provides (iconsDone env els).components,
                     calls := (iconsDone env els).calls ++ [Call.use env.router]
                                ++ [Call.use env.ElementPlus] },
        fault := some (Fault.installFailed env.ElementPlus) } := by
  have e : createApp env.App (World.load els) = Run.ok (created env els) := by
    simp [createApp, h, created, World.load]
  unfold main
  rw [e, Run.andThen_of_ok (Run.ok _) _ rfl,
    Run.andThen_of_ok _ _ (registerIcons_fault _ _)]
  simp [use, hr, hl, Run.andThen, iconsDone, Run.ok]

theorem main_of_target_missing (env : Env) (els : List String) (h : env.App.wellFormed = true)
    (hr : env.router.installs = true) (hl : env.ElementPlus.installs = true)
    (hm : "#app" ∉ els) :
    main env els =
      { world := { iconsDone env els with
                     plugins := (iconsDone env els).plugins ++ [env.router] ++ [env.ElementPlus],
                     components := registerAll env.ElementPlus.provides
                       (registerAll env.router.provides (iconsDone env els).components),
                     calls := (iconsDone env els).calls ++ [Call.use env.router]
                                ++ [Call.use env.ElementPlus] ++ [Call.mount "#app"] },
        fault := some (Fault.mountTargetMissing "#app") } := by
  have e : createApp env.App (World.load els) = Run.ok (created env els) := by
    simp [createApp, h, created, World.load]
  have he : (iconsDone env els).elements = els := (registerIcons_frame _ _).1
  unfold main
  rw [e, Run.andThen_of_ok (Run.ok _) _ rfl,
    Run.andThen_of_ok _ _ (registerIcons_fault _ _)]
  simp only [iconsDone] at he
  simp [use, mount, hr, hl, hm, he, Run.andThen, iconsDone, Run.ok]

theorem main_of_all_ok (env : Env) (els : List String) (h : env.App.wellFormed = true)
    (hr : env.router.installs = true) (hl : env.ElementPlus.installs = true)
    (hm : "#app" ∈ els) :
    main env els =
      { world := { iconsDone env els with
                     plugins := (iconsDone env els).plugins ++ [env.router] ++ [env.ElementPlus],
                     components := registerAll env.ElementPlus.provides
                       (registerAll env.router.provides (iconsDone env els).components),
                     mounts := (iconsDone env els).mounts ++ ["#app"],
                     rendered := (iconsDone env els).rendered ++ ["#app"],
                     calls := (iconsDone env els).calls ++ [Call.use env.router]
                                ++ [Call.use env.ElementPlus] ++ [Call.mount "#app"] },
        fault := none } := by
  have e : createApp env.App (World.load els) = Run.ok (created env els) := by
    simp [createApp, h, created, World.load]
  have he : (iconsDone env els).elements = els := (registerIcons_frame _ _).1
  unfold main
  rw [e, Run.andThen_of_ok (Run.ok _) _ rfl,
    Run.andThen_of_ok _ _ (registerIcons_fault _ _)]
  simp only [iconsDone] at he
  simp [use, mount, hr, hl, hm, he, Run.andThen, iconsDone, Run.ok]

theorem iconsDone_frame (env : Env) (els : List String) :
    (iconsDone env els).elements = els ∧
    (iconsDone env els).rendered = [] ∧
    (iconsDone env els).root = some env.App ∧
    (iconsDone env els).plugins = [] ∧
    (iconsDone env els).mounts = [] ∧
    (iconsDone env els).calls =
      Call.createApp env.App :: env.ElementPlusIconsVue.map (fun e => Call.component e.1 e.2) := by
  have h := registerIcons_frame env.ElementPlusIconsVue (created env els)
  simpa [iconsDone, created, World.load] using h

theorem afterIcons_world (env : Env) (els : List String) (h : env.App.wellFormed = true) :
    (afterIcons env els).world = iconsDone env els := by
  have e : createApp env.App (World.load els) = Run.ok (created env els) := by
    simp [createApp, h, created, World.load]
  unfold afterIcons
  rw [e, Run.andThen_of_ok (Run.ok _) _ rfl]
  rfl

theorem main_fault_none (env : Env) (els : List String) (h : (main env els).fault = none) :
    env.App.wellFormed = true ∧ env.router.installs = true ∧
      env.ElementPlus.installs = true ∧ "#app" ∈ els := by
  cases ha : env.App.wellFormed with
  | false => rw [main_of_malformed env els ha] at h; simp at h
  | true =>
    cases hr : env.router.installs with
    | false => rw [main_of_router_fails env els ha hr] at h; simp at h
    | true =>
      cases hl : env.ElementPlus.installs with
      | false => rw [main_of_library_fails env els ha hr hl] at h; simp at h
      | true =>
        by_cases hm : "#app" ∈ els
        · exact ⟨rfl, rfl, rfl, hm⟩
        · rw [main_of_target_missing env els ha hr hl hm] at h; simp at h

theorem andThen_use_mounts (r : Run) (p : Plugin) :
    (r.andThen (use p)).world.mounts = r.world.mounts := by
  unfold Run.andThen
  cases r.fault with
  | some f => rfl
  | none =>
    simp only [use]
    split <;> rfl

theorem andThen_use_calls (r : Run) (p : Plugin) (s : String)
    (h : Call.mount s ∉ r.world.calls) :
    Call.mount s ∉ (r.andThen (use p)).world.calls := by
  unfold Run.andThen
  cases r.fault with
  | some f => exact h
  | none =>
    simp only [use]
    split <;> simpa [Run.ok] using h

theorem afterIcons_mounts (env : Env) (els : List String) :
    (afterIcons env els).world.mounts = [] ∧
      ∀ s, Call.mount s ∉ (afterIcons env els).world.calls := by
  cases ha : env.App.wellFormed with
  | false =>
    have e : afterIcons env els =
        { world := { World.load els with calls := [Call.createApp env.App] },
          fault := some (Fault.malformedRoot env.App) } := by
      simp [afterIcons, createApp, ha, Run.andThen, World.load]
    rw [e]
    simp [World.load]
  | true =>
    rw [afterIcons_world env els ha]
    obtain ⟨-, -, -, -, hm, hc⟩ := iconsDone_frame env els
    rw [hm, hc]
    simp

theorem bindings_of_lookup (m : Registry) (key : String) (c : Component)
    (h : m.lookup key = some c) :
    (m.entries.map Sigma.fst).count key = 1 := by
  have hn : (m.entries.map Sigma.fst).Nodup := Multiset.nodup_keys.2 m.nodupKeys
  have hmem : key ∈ m.entries.map Sigma.fst := by
    have : key ∈ m := Finmap.mem_of_lookup_eq_some h
    exact Finmap.mem_def.1 this
  exact Multiset.count_eq_one_of_mem hn hmem

theorem registry_of_installed (reg : Registry) (ps : List Plugin) :
    (∀ n, n ∈ reg → n ∈ ps.foldl (fun r p => registerAll p.provides r) reg) ∧
    (∀ n, (∀ p ∈ ps, n ∉ p.provides.map Prod.fst) →
      (ps.foldl (fun r p => registerAll p.provides r) reg).lookup n = reg.lookup n) ∧
    (∀ p ∈ ps, ∀ n ∈ p.provides.map Prod.fst,
      n ∈ ps.foldl (fun r p => registerAll p.provides r) reg) := by
  induction ps generalizing reg with
  | nil => simp
  | cons q rest ih =>
    obtain ⟨h1, h2, h3⟩ := ih (registerAll q.provides reg)
    refine ⟨fun n hn => h1 n ((mem_registerAll _ _ _).2 (Or.inl hn)), fun n hn => ?_,
      fun p hp n hn => ?_⟩
    · rw [List.foldl_cons, h2 n (fun p hp => hn p (List.mem_cons_of_mem _ hp))]
      exact lookup_registerAll_of_not_mem _ _ _ (hn q (List.mem_cons_self _ _))
    · rw [List.foldl_cons]
      rcases List.mem_cons.1 hp with rfl | hp
      · exact h1 n ((mem_registerAll _ _ _).2 (Or.inr hn))
      · exact h3 p hp n hn

theorem main_components (env : Env) (els : List String)
    (hroot : (main env els).world.root = some env.App) :
    (main env els).world.components =
      (main env els).world.plugins.foldl (fun r p => registerAll p.provides r)
        (iconsDone env els).components := by
  obtain ⟨-, -, -, hp, -, -⟩ := iconsDone_frame env els
  cases ha : env.App.wellFormed with
  | false =>
    rw [main_of_malformed env els ha] at hroot
    simp [World.load] at hroot
  | true =>
    cases hr : env.router.installs with
    | false =>
      rw [main_of_router_fails env els ha hr]
      simp [hp]
    | true =>
      cases hl : env.ElementPlus.installs with
      | false =>
        rw [main_of_library_fails env els ha hr hl]
        simp [hp]
      | true =>
        by_cases hm : "#app" ∈ els
        · rw [main_of_all_ok env els ha hr hl hm]
          simp [hp]
        · rw [main_of_target_missing env els ha hr hl hm]
          simp [hp]

theorem registry_after_creation (env : Env) (els : List String)
    (hroot : (main env els).world.root = some env.App) :
    (∀ key c, (key, c) ∈ env.ElementPlusIconsVue →
      key ∈ (main env els).world.components.keys) ∧
    ((env.ElementPlusIconsVue.map Prod.fst).Nodup →
      ∀ key c, (key, c) ∈ env.ElementPlusIconsVue →
        (∀ p ∈ (main env els).world.plugins, key ∉ p.provides.map Prod.fst) →
        (main env els).world.components.lookup key = some c) ∧
    (∀ p ∈ (main env els).world.plugins, ∀ n ∈ p.provides.map Prod.fst,
      n ∈ (main env els).world.components.keys) := by
  obtain ⟨h1, h2, h3⟩ :=
    registry_of_installed (iconsDone env els).components (main env els).world.plugins
  rw [← main_components env els hroot] at h1 h2 h3
  refine ⟨fun key c h => ?_, fun hk key c h hn => ?_, fun p hp n hn => ?_⟩
  · apply Finmap.mem_keys.2
    apply h1
    have hkeys := keys_registerIcons env.ElementPlusIconsVue (created env els)
    have hmem : key ∈ (iconsDone env els).components.keys := by
      unfold iconsDone
      rw [hkeys]
      exact Finset.mem_union_right _ (List.mem_toFinset.2 (List.mem_map.2 ⟨(key, c), h, rfl⟩))
    exact Finmap.mem_keys.1 hmem
  · rw [h2 key hn]
    exact lookup_registerIcons_of_mem _ _ hk key c h
  · exact Finmap.mem_keys.2 (h3 p hp n hn)

/-! ## The claims -/

/-- C1 (as stated, refuted): with a UI library that provides a component named `Edit`, the
run completes, the icon mapping has unique keys and holds the entry `("Edit", editIcon)`,
yet `Edit` resolves to the library's component: the library is installed after the icon
loop and its registration overwrites the icon's. -/
theorem icon_overwritten_by_later_install :
    (collidingEnv.ElementPlusIconsVue.map Prod.fst).Nodup ∧
    (main collidingEnv ["#app"]).fault = none ∧
    ("Edit", editIcon) ∈ collidingEnv.ElementPlusIconsVue ∧
    (main collidingEnv ["#app"]).world.components.lookup "Edit" = some elEdit ∧
    (main collidingEnv ["#app"]).world.components.lookup "Edit" ≠ some editIcon := by
  decide

/-- C1 (amended): for every icon mapping with unique keys and every entry `(key, c)` of it,
once the bootstrap sequence has completed the global component registry holds a component
under exactly `key`; looking `key` up yields exactly `c` provided neither the router nor the
UI library, both installed after the icon loop, provides a component under the same name. -/
theorem icons_registered_unless_overwritten (env : Env) (els : List String)
    (hk : (env.ElementPlusIconsVue.map Prod.fst).Nodup)
    (hdone : (main env els).fault = none)
    (key : String) (c : Component) (h : (key, c) ∈ env.ElementPlusIconsVue) :
    key ∈ (main env els).world.components.keys ∧
    (key ∉ env.router.provides.map Prod.fst →
      key ∉ env.ElementPlus.provides.map Prod.fst →
      (main env els).world.components.lookup key = some c) := by
  obtain ⟨ha, hr, hl, hm⟩ := main_fault_none env els hdone
  obtain ⟨-, -, hroot0, hp0, -, -⟩ := iconsDone_frame env els
  have hroot : (main env els).world.root = some env.App := by
    rw [main_of_all_ok env els ha hr hl hm]
    exact hroot0
  have hplugins : (main env els).world.plugins = [env.router, env.ElementPlus] := by
    rw [main_of_all_ok env els ha hr hl hm]
    simp [hp0]
  obtain ⟨h1, h2, -⟩ := registry_after_creation env els hroot
  refine ⟨h1 key c h, fun hnr hnl => h2 hk key c h ?_⟩
  intro p hp
  rw [hplugins] at hp
  simp only [List.mem_cons, List.mem_singleton, List.not_mem_nil, or_false] at hp
  rcases hp with rfl | rfl
  · exact hnr
  · exact hnl

theorem icons_registered_unless_overwritten_witness :
    (sampleEnv.ElementPlusIconsVue.map Prod.fst).Nodup ∧
    (main sampleEnv ["#app"]).fault = none ∧
    ("Delete", deleteIcon) ∈ sampleEnv.ElementPlusIconsVue ∧
    "Delete" ∉ sampleEnv.router.provides.map Prod.fst ∧
    "Delete" ∉ sampleEnv.ElementPlus.provides.map Prod.fst ∧
    "Delete" ∈ (main sampleEnv ["#app"]).world.components.keys ∧
    (main sampleEnv ["#app"]).world.components.lookup "Delete" = some deleteIcon :=
  ⟨by decide, by decide, by decide, by decide, by decide,
    (icons_registered_unless_overwritten sampleEnv ["#app"] (by decide) (by decide)
      "Delete" deleteIcon (by decide)).1,
    (icons_registered_unless_overwritten sampleEnv ["#app"] (by decide) (by decide)
      "Delete" deleteIcon (by decide)).2 (by decide) (by decide)⟩

/-- C2: in every run of the bootstrap sequence the calls issued on the framework follow the
fixed order create, register every icon, install the router, install the UI library, mount:
the calls of a run are an initial segment of that sequence, and a run that completes has
issued exactly that sequence, with the router installed before the UI library and nothing
after the mount. -/
theorem calls_follow_fixed_order (env : Env) (els : List String) :
    (main env els).world.calls <+: specOrder env ∧
    ((main env els).fault = none →
      (main env els).world.calls = specOrder env ∧
      (main env els).world.plugins = [env.router, env.ElementPlus]) := by
  obtain ⟨-, -, -, hp, -, hc⟩ := iconsDone_frame env els
  cases ha : env.App.wellFormed with
  | false =>
    rw [main_of_malformed env els ha]
    refine ⟨⟨env.ElementPlusIconsVue.map (fun e => Call.component e.1 e.2)
      ++ [Call.use env.router, Call.use env.ElementPlus, Call.mount "#app"], ?_⟩,
      fun h => by simp at h⟩
    simp [specOrder, World.load]
  | true =>
    cases hr : env.router.installs with
    | false =>
      rw [main_of_router_fails env els ha hr]
      refine ⟨⟨[Call.use env.ElementPlus, Call.mount "#app"], ?_⟩, fun h => by simp at h⟩
      simp [specOrder, hc]
    | true =>
      cases hl : env.ElementPlus.installs with
      | false =>
        rw [main_of_library_fails env els ha hr hl]
        refine ⟨⟨[Call.mount "#app"], ?_⟩, fun h => by simp at h⟩
        simp [specOrder, hc]
      | true =>
        by_cases hm : "#app" ∈ els
        · rw [main_of_all_ok env els ha hr hl hm]
          refine ⟨⟨[], ?_⟩, fun _ => ⟨?_, ?_⟩⟩ <;> simp [specOrder, hc, hp]
        · rw [main_of_target_missing env els ha hr hl hm]
          refine ⟨⟨[], ?_⟩, fun h => by simp at h⟩
          simp [specOrder, hc]

theorem calls_follow_fixed_order_witness :
    (main sampleEnv ["#app"]).fault = none ∧
    (main sampleEnv ["#app"]).world.calls = specOrder sampleEnv ∧
    (main sampleEnv ["#app"]).world.plugins = [sampleEnv.router, sampleEnv.ElementPlus] :=
  ⟨by decide, (calls_follow_fixed_order sampleEnv ["#app"]).2 (by decide)⟩

/-- C3 (as stated, refuted): a run on a document without `#app` mounts the instance zero
times, and so does a run whose UI library fails to install (it stops before the mount call is
issued); so it is not true of every run that the instance is mounted exactly once and that
the final state is a mounted one. -/
theorem mounted_once_fails_without_target :
    (main sampleEnv []).world.mounts = [] ∧
    (main sampleEnv []).world.mounts ≠ ["#app"] ∧
    (main sampleEnv []).fault = some (Fault.mountTargetMissing "#app") ∧
    (main brokenLibraryEnv ["#app"]).world.mounts = [] ∧
    Call.mount "#app" ∉ (main brokenLibraryEnv ["#app"]).world.calls := by
  decide

/-- C3 (amended): in every run the instance is mounted at most once and only on `#app`; it
is mounted exactly once, the final state being a mounted one, exactly in the runs that
complete.  No step before the final one mounts: the script is its first statements followed
by the single `mount`, and before that last statement the instance is unmounted and no mount
call has been issued. -/
theorem mounted_once_by_final_step (env : Env) (els : List String) :
    main env els = (beforeMount env els).andThen (mount "#app") ∧
    (beforeMount env els).world.mounts = [] ∧
    (∀ s, Call.mount s ∉ (beforeMount env els).world.calls) ∧
    (((main env els).fault = none ∧ (main env els).world.mounts = ["#app"]) ∨
      ((main env els).fault ≠ none ∧ (main env els).world.mounts = [])) := by
  have hb : (beforeMount env els).world.mounts = [] := by
    unfold beforeMount
    rw [andThen_use_mounts, andThen_use_mounts]
    exact (afterIcons_mounts env els).1
  have hcalls : ∀ s, Call.mount s ∉ (beforeMount env els).world.calls := by
    intro s
    unfold beforeMount
    exact andThen_use_calls _ _ _ (andThen_use_calls _ _ _ ((afterIcons_mounts env els).2 s))
  refine ⟨rfl, hb, hcalls, ?_⟩
  obtain ⟨-, -, -, -, hm0, -⟩ := iconsDone_frame env els
  cases ha : env.App.wellFormed with
  | false =>
    rw [main_of_malformed env els ha]
    right
    simp [World.load]
  | true =>
    cases hr : env.router.installs with
    | false =>
      rw [main_of_router_fails env els ha hr]
      right
      simp [hm0]
    | true =>
      cases hl : env.ElementPlus.installs with
      | false =>
        rw [main_of_library_fails env els ha hr hl]
        right
        simp [hm0]
      | true =>
        by_cases hm : "#app" ∈ els
        · rw [main_of_all_ok env els ha hr hl hm]
          left
          simp [hm0]
        · rw [main_of_target_missing env els ha hr hl hm]
          right
          simp [hm0]

/-- C4: for every document that has no element matching `#app`, the bootstrap sequence ends in
an error instead of completing, and the document holds no rendered output afterwards. -/
theorem missing_target_fails (env : Env) (els : List String) (hm : "#app" ∉ els) :
    (main env els).fault ≠ none ∧ (main env els).world.rendered = [] := by
  obtain ⟨-, hr0, -, -, -, -⟩ := iconsDone_frame env els
  cases ha : env.App.wellFormed with
  | false =>
    rw [main_of_malformed env els ha]
    simp [World.load]
  | true =>
    cases hr : env.router.installs with
    | false =>
      rw [main_of_router_fails env els ha hr]
      simp [hr0]
    | true =>
      cases hl : env.ElementPlus.installs with
      | false =>
        rw [main_of_library_fails env els ha hr hl]
        simp [hr0]
      | true =>
        rw [main_of_target_missing env els ha hr hl hm]
        simp [hr0]

theorem missing_target_fails_witness :
    "#app" ∉ ["#root", "#sidebar"] ∧
    (main sampleEnv ["#root", "#sidebar"]).fault ≠ none ∧
    (main sampleEnv ["#root", "#sidebar"]).world.rendered = [] :=
  ⟨by decide, missing_target_fails sampleEnv ["#root", "#sidebar"] (by decide)⟩

/-- C5 (as stated, refuted): when the UI library fails to install, the run ends in an error
but the state is not the one in which no step was applied: the icons are registered and
the router is installed. -/
theorem failure_leaves_earlier_steps_applied :
    (main brokenLibraryEnv ["#app"]).fault = some (Fault.installFailed brokenLibraryEnv.ElementPlus) ∧
    (main brokenLibraryEnv ["#app"]).world.components.lookup "Edit" = some editIcon ∧
    (main brokenLibraryEnv ["#app"]).world.components ≠ ∅ ∧
    (main brokenLibraryEnv ["#app"]).world.plugins = [brokenLibraryEnv.router] ∧
    (main brokenLibraryEnv ["#app"]).world.plugins ≠ [] := by
  decide

/-- C5 (amended): in every run in which some step fails, the run ends in that step's error
with no later step executed (the last call issued is the failing one), the instance is not
mounted and nothing is rendered; there is no rollback, what the steps before the failing
one did stays in place: once the instance exists every icon of the mapping is registered
under its key (and resolves to its own component when the keys are unique and no installed
plugin provides a component of that name), and every plugin installed before the failure
stays installed with its components registered. -/
theorem failure_stops_without_rollback (env : Env) (els : List String)
    (hfail : (main env els).fault ≠ none) :
    (main env els).world.mounts = [] ∧
    (main env els).world.rendered = [] ∧
    (main env els).world.calls <+: specOrder env ∧
    (main env els).world.calls.getLast? = (main env els).fault.map Fault.raisedBy ∧
    (((main env els).fault = some (Fault.malformedRoot env.App) ∧
        (main env els).world.calls = [Call.createApp env.App] ∧
        (main env els).world.root = none ∧
        (main env els).world.components = ∅ ∧
        (main env els).world.plugins = []) ∨
      ((main env els).fault = some (Fault.installFailed env.router) ∧
        (main env els).world.calls = Call.createApp env.App ::
          env.ElementPlusIconsVue.map (fun e => Call.component e.1 e.2)
          ++ [Call.use env.router] ∧
        (main env els).world.root = some env.App ∧
        (main env els).world.plugins = []) ∨
      ((main env els).fault = some (Fault.installFailed env.ElementPlus) ∧
        (main env els).world.calls = Call.createApp env.App ::
          env.ElementPlusIconsVue.map (fun e => Call.component e.1 e.2)
          ++ [Call.use env.router, Call.use env.ElementPlus] ∧
        (main env els).world.root = some env.App ∧
        (main env els).world.plugins = [env.router]) ∨
      ((main env els).fault = some (Fault.mountTargetMissing "#app") ∧
        (main env els).world.calls = specOrder env ∧
        (main env els).world.root = some env.App ∧
        (main env els).world.plugins = [env.router, env.ElementPlus])) ∧
    ((main env els).world.root = some env.App →
      (∀ key c, (key, c) ∈ env.ElementPlusIconsVue →
        key ∈ (main env els).world.components.keys) ∧
      ((env.ElementPlusIconsVue.map Prod.fst).Nodup →
        ∀ key c, (key, c) ∈ env.ElementPlusIconsVue →
          (∀ p ∈ (main env els).world.plugins, key ∉ p.provides.map Prod.fst) →
          (main env els).world.components.lookup key = some c) ∧
      (∀ p ∈ (main env els).world.plugins, ∀ n ∈ p.provides.map Prod.fst,
        n ∈ (main env els).world.components.keys)) := by
  have hreg := registry_after_creation env els
  obtain ⟨-, hr0, hroot, hp, hm0, hc⟩ := iconsDone_frame env els
  cases ha : env.App.wellFormed with
  | false =>
    rw [main_of_malformed env els ha] at hreg ⊢
    refine ⟨by simp [World.load], by simp [World.load], ⟨env.ElementPlusIconsVue.map
      (fun e => Call.component e.1 e.2) ++ [Call.use env.router, Call.use env.ElementPlus,
        Call.mount "#app"], by simp [specOrder]⟩, by simp [Fault.raisedBy], Or.inl ?_, hreg⟩
    simp [World.load]
  | true =>
    cases hr : env.router.installs with
    | false =>
      rw [main_of_router_fails env els ha hr] at hreg ⊢
      refine ⟨by simp [hm0], by simp [hr0],
        ⟨[Call.use env.ElementPlus, Call.mount "#app"], by simp [specOrder, hc]⟩,
        by simp [Fault.raisedBy], Or.inr (Or.inl ?_), hreg⟩
      simp [hroot, hp, hc]
    | true =>
      cases hl : env.ElementPlus.installs with
      | false =>
        rw [main_of_library_fails env els ha hr hl] at hreg ⊢
        refine ⟨by simp [hm0], by simp [hr0],
          ⟨[Call.mount "#app"], by simp [specOrder, hc]⟩,
          by simp [Fault.raisedBy], Or.inr (Or.inr (Or.inl ?_)), hreg⟩
        simp [hroot, hp, hc]
      | true =>
        by_cases hm : "#app" ∈ els
        · rw [main_of_all_ok env els ha hr hl hm] at hfail
          simp at hfail
        · rw [main_of_target_missing env els ha hr hl hm] at hreg ⊢
          refine ⟨by simp [hm0], by simp [hr0],
            ⟨[], by simp [specOrder, hc]⟩,
            by simp [Fault.raisedBy], Or.inr (Or.inr (Or.inr ?_)), hreg⟩
          simp [hroot, hp, specOrder, hc]

theorem failure_stops_without_rollback_witness :
    (main brokenLibraryEnv ["#app"]).fault ≠ none ∧
    (main brokenLibraryEnv ["#app"]).world.root = some brokenLibraryEnv.App ∧
    (main brokenLibraryEnv ["#app"]).world.mounts = [] ∧
    (main brokenLibraryEnv ["#app"]).world.rendered = [] ∧
    "Edit" ∈ (main brokenLibraryEnv ["#app"]).world.components.keys :=
  ⟨by decide, by decide,
    (failure_stops_without_rollback brokenLibraryEnv ["#app"] (by decide)).1,
    (failure_stops_without_rollback brokenLibraryEnv ["#app"] (by decide)).2.1,
    ((failure_stops_without_rollback brokenLibraryEnv ["#app"] (by decide)).2.2.2.2.2
      (by decide)).1 "Edit" editIcon (by decide)⟩

/-- C6: for every document that contains an element matching `#app`, with a well-formed root
component and plugins whose install does not fail, the bootstrap sequence completes without
throwing and afterwards the document holds rendered output inside that mount point. -/
theorem bootstrap_completes_and_renders (env : Env) (els : List String)
    (hm : "#app" ∈ els) (ha : env.App.wellFormed = true)
    (hr : env.router.installs = true) (hl : env.ElementPlus.installs = true) :
    (main env els).fault = none ∧
    "#app" ∈ (main env els).world.rendered ∧
    (main env els).world.rendered = ["#app"] := by
  obtain ⟨-, hr0, -, -, -, -⟩ := iconsDone_frame env els
  rw [main_of_all_ok env els ha hr hl hm]
  simp [hr0]

theorem bootstrap_completes_and_renders_witness :
    "#app" ∈ ["#app", "#sidebar"] ∧
    sampleEnv.App.wellFormed = true ∧
    sampleEnv.router.installs = true ∧
    sampleEnv.ElementPlus.installs = true ∧
    (main sampleEnv ["#app", "#sidebar"]).fault = none ∧
    "#app" ∈ (main sampleEnv ["#app", "#sidebar"]).world.rendered ∧
    (main sampleEnv ["#app", "#sidebar"]).world.rendered = ["#app"] :=
  ⟨by decide, rfl, rfl, rfl,
    bootstrap_completes_and_renders sampleEnv ["#app", "#sidebar"] (by decide) rfl rfl rfl⟩

/-- C7: the order of icon registration is irrelevant: for every icon mapping with pairwise
distinct keys and every permutation of its entries, the registration loop run over the
permuted entries yields the same global component registry as the loop run over the
original entries, from every starting state. -/
theorem registration_order_irrelevant (es ps : List (String × Component)) (w : World)
    (hk : (es.map Prod.fst).Nodup) (hp : ps.Perm es) :
    (registerIcons ps w).world.components = (registerIcons es w).world.components := by
  have hkp : (ps.map Prod.fst).Nodup := (hp.map Prod.fst).nodup_iff.2 hk
  apply Finmap.ext_lookup
  intro n
  by_cases hn : n ∈ es.map Prod.fst
  · obtain ⟨e, he, rfl⟩ := List.mem_map.1 hn
    obtain ⟨k, c⟩ := e
    rw [lookup_registerIcons_of_mem es w hk k c he,
      lookup_registerIcons_of_mem ps w hkp k c (hp.mem_iff.2 he)]
  · have hn2 : n ∉ ps.map Prod.fst := fun h => hn ((hp.map Prod.fst).mem_iff.1 h)
    rw [lookup_registerIcons_of_not_mem es w n hn, lookup_registerIcons_of_not_mem ps w n hn2]

theorem registration_order_irrelevant_witness :
    ([("Edit", editIcon), ("Delete", deleteIcon), ("Search", searchIcon)].map Prod.fst).Nodup ∧
    [("Search", searchIcon), ("Edit", editIcon), ("Delete", deleteIcon)].Perm
      [("Edit", editIcon), ("Delete", deleteIcon), ("Search", searchIcon)] ∧
    (registerIcons [("Search", searchIcon), ("Edit", editIcon), ("Delete", deleteIcon)]
        busyWorld).world.components =
      (registerIcons [("Edit", editIcon), ("Delete", deleteIcon), ("Search", searchIcon)]
        busyWorld).world.components :=
  ⟨by decide, by decide,
    registration_order_irrelevant _ _ busyWorld (by decide) (by decide)⟩

/-- C8: re-registration overwrites silently: for every sequence of entries fed to the
registration loop and every name in it (in particular a name that occurs more than once),
the loop does not fail, afterwards the name resolves to the component of its last occurrence
in the sequence, and the registry holds exactly one binding for the name. -/
theorem reregistration_overwrites (pre post : List (String × Component)) (key : String)
    (c : Component) (w : World) (hlast : key ∉ post.map Prod.fst) :
    (registerIcons (pre ++ (key, c) :: post) w).fault = none ∧
    (registerIcons (pre ++ (key, c) :: post) w).world.components.lookup key = some c ∧
    ((registerIcons (pre ++ (key, c) :: post) w).world.components.entries.map
      Sigma.fst).count key = 1 := by
  have h := lookup_registerIcons_last pre post key c w hlast
  exact ⟨registerIcons_fault _ _, h, bindings_of_lookup _ key c h⟩

theorem reregistration_overwrites_witness :
    "Edit" ∉ [("Delete", deleteIcon)].map Prod.fst ∧
    (registerIcons ([("Edit", editIcon), ("Search", searchIcon)]
      ++ ("Edit", deleteIcon) :: [("Delete", deleteIcon)]) busyWorld).fault = none ∧
    (registerIcons ([("Edit", editIcon), ("Search", searchIcon)]
      ++ ("Edit", deleteIcon) :: [("Delete", deleteIcon)]) busyWorld).world.components.lookup
        "Edit" = some deleteIcon ∧
    ((registerIcons ([("Edit", editIcon), ("Search", searchIcon)]
      ++ ("Edit", deleteIcon) :: [("Delete", deleteIcon)]) busyWorld).world.components.entries.map
        Sigma.fst).count "Edit" = 1 :=
  ⟨by decide,
    reregistration_overwrites [("Edit", editIcon), ("Search", searchIcon)]
      [("Delete", deleteIcon)] "Edit" deleteIcon busyWorld (by decide)⟩

/-- C9: the icon registration loop changes nothing but the component registry, and there only
the icon names: from every state and for every icon mapping, after the loop the installed
plugins, the mount state, the root component and the document are unchanged, every name that
is not a key of the mapping resolves exactly as before, and the set of registered names is
the previous set united with the keys of the mapping. -/
theorem registration_frame (es : List (String × Component)) (w : World) :
    (registerIcons es w).world.plugins = w.plugins ∧
    (registerIcons es w).world.mounts = w.mounts ∧
    (registerIcons es w).world.root = w.root ∧
    (registerIcons es w).world.elements = w.elements ∧
    (registerIcons es w).world.rendered = w.rendered ∧
    (∀ n, n ∉ es.map Prod.fst →
      (registerIcons es w).world.components.lookup n = w.components.lookup n) ∧
    (registerIcons es w).world.components.keys =
      w.components.keys ∪ (es.map Prod.fst).toFinset := by
  obtain ⟨he, hr, hroot, hp, hm, -⟩ := registerIcons_frame es w
  exact ⟨hp, hm, hroot, he, hr, fun n hn => lookup_registerIcons_of_not_mem es w n hn,
    keys_registerIcons es w⟩

theorem registration_frame_witness :
    "Search" ∉ sampleEnv.ElementPlusIconsVue.map Prod.fst ∧
    (registerIcons sampleEnv.ElementPlusIconsVue busyWorld).world.components.lookup "Search" =
      busyWorld.components.lookup "Search" ∧
    (registerIcons sampleEnv.ElementPlusIconsVue busyWorld).world.plugins = busyWorld.plugins :=
  ⟨by decide,
    (registration_frame sampleEnv.ElementPlusIconsVue busyWorld).2.2.2.2.2.1 "Search" (by decide),
    (registration_frame sampleEnv.ElementPlusIconsVue busyWorld).1⟩

end RiddleSense
